import Mathlib

/-!
Verification of the audio-spectrogram rendering engine (`src/core.ts`,
`src/app.ts`) against its natural-language specification.

JavaScript `number` arithmetic is modelled exactly over `ℚ` where the code
only compares, floors and ceils (frame ranges, progress percentages, zoom
algebra) and over `ℝ` where transcendental functions appear (Hamming window,
DFT, `log1p`, `sqrt`).  `Math.floor` / `Math.ceil` become `Int.floor` /
`Int.ceil`.  Machine `Float` rounding is not modelled; every property proved
here is robust to it in the sense that the spec states the same real-number
formulas.
-/

/-- `core.ts` line 120: `totalFrameCount = Math.floor((audioData.length -
windowSize) / hopSize) + 1`. -/
def totalFrameCount (sampleCount windowSize hopSize : ℕ) : ℤ :=
  ⌊((sampleCount : ℚ) - windowSize) / hopSize⌋ + 1

/-- `core.ts` line 141: `startFrame = Math.max(0, Math.min(frameStart ?? 0,
totalFrameCount - 1))`. -/
def clampedStart (frameStart : Option ℤ) (total : ℤ) : ℤ :=
  max 0 (min (frameStart.getD 0) (total - 1))

/-- `core.ts` line 142: `endFrame = Math.max(0, Math.min(frameEnd ??
totalFrameCount, totalFrameCount))`. -/
def clampedEnd (frameEnd : Option ℤ) (total : ℤ) : ℤ :=
  max 0 (min (frameEnd.getD total) total)

/-- `core.ts` lines 201-212: `frameStartIdx = Math.floor(startFrame + (x /
canvasWidth) * frameCount)` clamped into `[startFrame, startFrame +
frameCount - 1]`. -/
def columnFrameLo (startFrame frameCount : ℤ) (canvasWidth x : ℕ) : ℤ :=
  let frameIndexStart : ℚ := (startFrame : ℚ) + ((x : ℚ) / canvasWidth) * frameCount
  max startFrame (min ⌊frameIndexStart⌋ (startFrame + frameCount - 1))

/-- `core.ts` lines 202-216: `frameEndIdx = Math.ceil(startFrame + ((x + 1) /
canvasWidth) * frameCount)` clamped into `[startFrame, startFrame +
frameCount]`. -/
def columnFrameHi (startFrame frameCount : ℤ) (canvasWidth x : ℕ) : ℤ :=
  let frameIndexEnd : ℚ := (startFrame : ℚ) + (((x : ℚ) + 1) / canvasWidth) * frameCount
  max startFrame (min ⌈frameIndexEnd⌉ (startFrame + frameCount))

/-- `core.ts` lines 228-231: the frame indices iterated for pixel column `x`
(`for (let frame = frameStartIdx; frame < frameEndIdx; frame++)`). -/
def columnFrames (startFrame frameCount : ℤ) (canvasWidth x : ℕ) : List ℤ :=
  let lo := columnFrameLo startFrame frameCount canvasWidth x
  let hi := columnFrameHi startFrame frameCount canvasWidth x
  (List.range (hi - lo).toNat).map fun (i : ℕ) => lo + (i : ℤ)

/-- `core.ts` lines 233-242: the sample range `[start, end)` extracted for one
frame, with the edge clamping that shifts the window left to fit the buffer
end and right to sample 0 (never zero-padding). -/
def frameSampleRange (frame : ℤ) (hopSize windowSize sampleCount : ℕ) : ℤ × ℤ :=
  let start : ℤ := frame * hopSize
  let stop : ℤ := start + windowSize
  let p : ℤ × ℤ :=
    if stop > (sampleCount : ℤ) then ((sampleCount : ℤ) - windowSize, (sampleCount : ℤ))
    else (start, stop)
  if p.1 < 0 then (0, min (windowSize : ℤ) (sampleCount : ℤ)) else p

/-- `core.ts` line 334: `percent = Math.floor(((x + 1) / canvasWidth) * 100)`. -/
def percentAt (canvasWidth x : ℕ) : ℤ :=
  ⌊(((x : ℚ) + 1) / canvasWidth) * 100⌋

/-- `app.ts` lines 306-341 (`renderSpectrogram`): selection of the frame range
to render from the viewport state.  Returns `(none, none)` when the visible
time window covers the whole audio (all frames are rendered). -/
def selectFrameRange (zoomSeconds audioDuration offset zoom sampleRate hopSize : ℚ)
    (frameCount : ℤ) : Option ℤ × Option ℤ :=
  if zoomSeconds ≥ audioDuration then (none, none)
  else
    let startTimeRatio := offset / ((frameCount : ℚ) * zoom)
    let startTimeSeconds := startTimeRatio * audioDuration
    let endTimeSeconds := startTimeSeconds + zoomSeconds
    let startFrameIndex : ℤ := ⌊startTimeSeconds * sampleRate / hopSize⌋
    let endFrameIndex : ℤ := ⌈endTimeSeconds * sampleRate / hopSize⌉
    let frameStart := max 0 (min startFrameIndex (frameCount - 1))
    let frameEnd := max 0 (min endFrameIndex frameCount)
    if frameEnd ≤ frameStart then (some frameStart, some (min (frameStart + 1) frameCount))
    else (some frameStart, some frameEnd)

/-- `app.ts` lines 344-345: `renderedFrameStart = frameStart ?? 0;
renderedFrameEnd = frameEnd ?? frameCount`. -/
def renderedRange (r : Option ℤ × Option ℤ) (frameCount : ℤ) : ℤ × ℤ :=
  (r.1.getD 0, r.2.getD frameCount)

/-- `app.ts` lines 449-456 (`secondsToZoom`), with the analysis parameters
present (the `!cachedParams` early return is the un-loaded state). -/
def secondsToZoom (viewportWidth hopSize sampleRate seconds : ℚ) : ℚ :=
  viewportWidth * hopSize / (seconds * sampleRate)

/-- `app.ts` lines 459-467 (`zoomToSeconds`), with the analysis parameters
present. -/
def zoomToSeconds (viewportWidth hopSize sampleRate zoomValue : ℚ) : ℚ :=
  viewportWidth * hopSize / (zoomValue * sampleRate)

/-- `tf.signal.hammingWindow(windowSize)` (`core.ts` line 155): the periodic
Hamming window `0.54 - 0.46 * cos(2 pi n / N)`. -/
noncomputable def hammingWindow (windowSize : ℕ) : List ℝ :=
  (List.range windowSize).map fun (n : ℕ) =>
    0.54 - 0.46 * Real.cos (2 * Real.pi * n / windowSize)

/-- `tf.spectral.fft` (`core.ts` line 253) on a complex frame: the discrete
Fourier transform `X_k = sum_n x_n * exp(-2 pi i k n / N)`. -/
noncomputable def dft (l : List ℂ) : List ℂ :=
  (List.range l.length).map fun (k : ℕ) =>
    ((List.range l.length).map fun (n : ℕ) =>
      l.getD n 0 * Complex.exp (-(2 * (Real.pi : ℂ) * Complex.I * k * n) / l.length)).sum

/-- `core.ts` lines 233-268: the per-frame magnitude vector pushed onto
`frameMagnitudes` — slice the sample buffer (with edge clamping), apply the
Hamming window, FFT, magnitude of the first `windowSize / 2` bins,
`log1p(m) / log1p(255)`, then slice to `maxFrequency` bins. -/
noncomputable def frameLogMagnitudes (audioData : List ℝ) (windowSize hopSize maxFrequency : ℕ)
    (frame : ℤ) : List ℝ :=
  let p := frameSampleRange frame hopSize windowSize audioData.length
  let frameBuffer := (audioData.take p.2.toNat).drop p.1.toNat
  let windowedFrame : List ℝ :=
    List.zipWith (fun a b => a * b) frameBuffer (hammingWindow windowSize)
  let magnitude := ((dft (windowedFrame.map Complex.ofReal)).take (windowSize / 2)).map
    Complex.abs
  let logMagnitude := magnitude.map fun m => Real.log (1 + m) / Real.log (1 + 255)
  logMagnitude.take maxFrequency

/-- `core.ts` lines 272-288: `tf.max(tf.stack(frameMagnitudes), 0)` — the
elementwise maximum across the column's frame vectors (the single-frame case
is that frame's vector). -/
noncomputable def poolFrames : List (List ℝ) → List ℝ
  | [] => []
  | v :: vs => vs.foldl (List.zipWith max) v

/-- One rendered RGBA pixel (`imageData.data[index .. index+3]`). -/
structure RenderPixel where
  r : ℤ
  g : ℤ
  b : ℤ
  a : ℤ
  deriving DecidableEq

/-- `core.ts` lines 291-321: one pixel of a column — map canvas `y` to a
frequency-bin range (inverted, floor/ceil, clamped), max-pool `maxValues`
over that range starting from 0, and write `floor(maxMag * 255)` to the three
color channels with full opacity. -/
noncomputable def columnPixel (maxValues : List ℝ) (maxFrequency canvasHeight y : ℕ) :
    RenderPixel :=
  let freqIndexStart : ℚ := (((canvasHeight : ℚ) - 1 - y) / canvasHeight) * maxFrequency
  let freqIndexEnd : ℚ := (((canvasHeight : ℚ) - y) / canvasHeight) * maxFrequency
  let freqStart := max 0 (min ⌊freqIndexStart⌋ ((maxFrequency : ℤ) - 1))
  let freqEnd := max 0 (min ⌈freqIndexEnd⌉ (maxFrequency : ℤ))
  let bins := (List.range (freqEnd - freqStart).toNat).map fun (i : ℕ) => freqStart + (i : ℤ)
  let maxMag : ℝ := bins.foldl
    (fun m f => let v := maxValues.getD f.toNat 0; if m < v then v else m) 0
  let color : ℤ := ⌊maxMag * 255⌋
  ⟨color, color, color, 255⟩

/-- `core.ts` lines 221-332: the full pixel column written for canvas column
`x` — max-pool the contributing frames and write `canvasHeight` pixels; if no
frame maps to the column, fill it with opaque black. -/
noncomputable def columnData (audioData : List ℝ) (windowSize hopSize maxFrequency : ℕ)
    (startFrame frameCount : ℤ) (canvasWidth canvasHeight : ℕ) (x : ℕ) : List RenderPixel :=
  let frames := columnFrames startFrame frameCount canvasWidth x
  if frames.isEmpty then List.replicate canvasHeight ⟨0, 0, 0, 255⟩
  else
    let maxValues := poolFrames
      (frames.map (frameLogMagnitudes audioData windowSize hopSize maxFrequency))
    (List.range canvasHeight).map fun y => columnPixel maxValues maxFrequency canvasHeight y

/-- The mutable state the column loop of `drawSpectrogram` threads: the raster
(`none` = this column still holds the `ImageData` default bytes), the
`lastPercent` de-duplication mark and the list of emitted progress
percentages (`onProgress` is assumed attached; `etaMs` is wall-clock time and
not modelled). -/
structure DrawState where
  raster : ℕ → Option (List RenderPixel)
  lastPercent : ℤ
  emissions : List ℤ

/-- `core.ts` lines 199-343: the body of one column iteration — write the
column's pixels and emit the progress percentage if it changed. -/
noncomputable def processColumn (audioData : List ℝ) (windowSize hopSize maxFrequency : ℕ)
    (startFrame frameCount : ℤ) (canvasWidth canvasHeight : ℕ) (x : ℕ) (st : DrawState) :
    DrawState :=
  let pixels := columnData audioData windowSize hopSize maxFrequency startFrame frameCount
    canvasWidth canvasHeight x
  let raster := fun c => if c = x then some pixels else st.raster c
  let percent := percentAt canvasWidth x
  if percent ≠ st.lastPercent then ⟨raster, percent, st.emissions ++ [percent]⟩
  else ⟨raster, st.lastPercent, st.emissions⟩

/-- `core.ts` line 195: `for (let x = 0; x < canvasWidth && !signal.aborted;
x++)`.  `aborted c` is the state of `signal.aborted` observed while column
`c` is at the head of the loop (an `AbortSignal` is monotone; cancellation at
a column boundary keeps it constant within the column).  The cooperative
pause wait does not change any rendered value and is not modelled. -/
noncomputable def drawLoopAux (audioData : List ℝ) (windowSize hopSize maxFrequency : ℕ)
    (startFrame frameCount : ℤ) (canvasWidth canvasHeight : ℕ) (aborted : ℕ → Bool) :
    ℕ → ℕ → DrawState → DrawState
  | 0, _, st => st
  | n + 1, x, st =>
    if aborted x then st
    else drawLoopAux audioData windowSize hopSize maxFrequency startFrame frameCount
      canvasWidth canvasHeight aborted n (x + 1)
      (processColumn audioData windowSize hopSize maxFrequency startFrame frameCount
        canvasWidth canvasHeight x st)

/-- `core.ts` lines 193-361: run the column loop over all `canvasWidth`
columns and, if the signal is not aborted afterwards (line 357), emit the
final `100%` notification. -/
noncomputable def drawRun (audioData : List ℝ) (windowSize hopSize maxFrequency : ℕ)
    (startFrame frameCount : ℤ) (canvasWidth canvasHeight : ℕ) (aborted : ℕ → Bool) :
    DrawState :=
  let final := drawLoopAux audioData windowSize hopSize maxFrequency startFrame frameCount
    canvasWidth canvasHeight aborted canvasWidth 0 ⟨fun _ => none, -1, []⟩
  if aborted canvasWidth then final
  else { final with emissions := final.emissions ++ [100] }

/-- `core.ts` lines 95-361 (`drawSpectrogram`): the validation phase (the
three `throw`s, in source order) followed by the render loop.  `frequencyBinCount
= windowSize / 2` is real division in the source; the profiles only use even
window sizes, where `ℚ` division agrees with it. -/
noncomputable def drawSpectrogram (audioData : List ℝ) (windowSize hopSize maxFrequency : ℕ)
    (frameStart frameEnd : Option ℤ) (canvasWidth canvasHeight : ℕ) (aborted : ℕ → Bool) :
    Except String DrawState :=
  let total := totalFrameCount audioData.length windowSize hopSize
  if (maxFrequency : ℚ) > (windowSize : ℚ) / 2 then
    .error "maxFrequency must be less than frequencyBinCount"
  else if canvasWidth ≤ 0 ∨ canvasHeight ≤ 0 then
    .error "Canvas width and height must be greater than 0"
  else
    let startFrame := clampedStart frameStart total
    let endFrame := clampedEnd frameEnd total
    if endFrame - startFrame ≤ 0 then
      .error "Invalid frame range: frameStart must be less than frameEnd"
    else
      .ok (drawRun audioData windowSize hopSize maxFrequency startFrame
        (endFrame - startFrame) canvasWidth canvasHeight aborted)

/-- Whether a `drawSpectrogram` run raised (threw) rather than returning. -/
def isError : Except String DrawState → Bool
  | .error _ => true
  | .ok _ => false

/-- The progress emissions of a `drawSpectrogram` run (empty when it threw
before starting the loop). -/
def emissionsOf : Except String DrawState → List ℤ
  | .error _ => []
  | .ok st => st.emissions

/-- One entry of the waveform preview (`core.ts` line 418). -/
structure WaveformEntry where
  min : ℝ
  max : ℝ
  rms : ℝ

/-- `core.ts` line 417: `samplesPerPixel = Math.max(1,
Math.floor(audioData.length / canvasWidth))` (integer arguments, so the
float division plus floor is natural-number division). -/
def samplesPerPixel (sampleCount canvasWidth : ℕ) : ℕ :=
  max 1 (sampleCount / canvasWidth)

/-- `core.ts` lines 420-443: the loop body of `calculateWaveformData` for one
pixel `x` — the min/max/RMS of the samples in `[start, min(start +
samplesPerPixel, length))`, or `{0, 0, 0}` when `start` is at or past the
end of the audio.  `count` increments once per loop iteration, i.e. it is
the window's length. -/
noncomputable def waveformEntry (audioData : List ℝ) (canvasWidth x : ℕ) : WaveformEntry :=
  let spp := samplesPerPixel audioData.length canvasWidth
  let start := x * spp
  let stop := min (start + spp) audioData.length
  if audioData.length ≤ start then ⟨0, 0, 0⟩
  else
    let window := (audioData.take stop).drop start
    let first := audioData.getD start 0
    let mn := window.foldl (fun m v => if v < m then v else m) first
    let mx := window.foldl (fun m v => if m < v then v else m) first
    let sumSquares := window.foldl (fun s v => s + v * v) 0
    ⟨mn, mx, Real.sqrt (sumSquares / window.length)⟩

/-- `core.ts` lines 413-446 (`calculateWaveformData`): one entry per canvas
pixel, pushed in order `x = 0, …, canvasWidth - 1`. -/
noncomputable def calculateWaveformData (audioData : List ℝ) (canvasWidth : ℕ) :
    List WaveformEntry :=
  (List.range canvasWidth).map (waveformEntry audioData canvasWidth)

/-- The sample bucket `[x * samplesPerPixel, min(x * samplesPerPixel +
samplesPerPixel, length))` underlying pixel `x` of the waveform preview. -/
def waveformBucket (audioData : List ℝ) (canvasWidth x : ℕ) : List ℝ :=
  let spp := samplesPerPixel audioData.length canvasWidth
  let start := x * spp
  let stop := min (start + spp) audioData.length
  (audioData.take stop).drop start

/-- Any frame index delivered to the frame loop of a column lies between the
column's clamped bounds. -/
lemma mem_columnFrames {startFrame frameCount : ℤ} {canvasWidth x : ℕ} {f : ℤ}
    (hfc : 0 ≤ frameCount)
    (hf : f ∈ columnFrames startFrame frameCount canvasWidth x) :
    startFrame ≤ f ∧ f < startFrame + frameCount := by
  have h1 : startFrame ≤ columnFrameLo startFrame frameCount canvasWidth x :=
    le_max_left _ _
  have h2 : columnFrameHi startFrame frameCount canvasWidth x ≤ startFrame + frameCount :=
    max_le (by omega) (min_le_right _ _)
  simp only [columnFrames] at hf
  obtain ⟨j, hjmem, rfl⟩ := List.mem_map.mp hf
  rw [List.mem_range] at hjmem
  omega

/-- C1: for `0 ≤ frameStart < frameEnd ≤ totalFrameCount`, every frame index
iterated by the column loop of `drawSpectrogram` (after the floor/ceil
linear-interpolation mapping and clamping) lies in `[frameStart, frameEnd)`,
for every pixel column `x`; no out-of-range frame is ever requested from the
sample buffer. -/
theorem c1_column_frames_in_range (sampleCount windowSize hopSize : ℕ) (fs fe : ℤ)
    (h0 : 0 ≤ fs) (h1 : fs < fe)
    (h2 : fe ≤ totalFrameCount sampleCount windowSize hopSize)
    (canvasWidth x : ℕ) (f : ℤ)
    (hf : f ∈ columnFrames
      (clampedStart (some fs) (totalFrameCount sampleCount windowSize hopSize))
      (clampedEnd (some fe) (totalFrameCount sampleCount windowSize hopSize) -
        clampedStart (some fs) (totalFrameCount sampleCount windowSize hopSize))
      canvasWidth x) :
    fs ≤ f ∧ f < fe := by
  have hs : clampedStart (some fs) (totalFrameCount sampleCount windowSize hopSize) = fs := by
    simp only [clampedStart, Option.getD_some]
    omega
  have he : clampedEnd (some fe) (totalFrameCount sampleCount windowSize hopSize) = fe := by
    simp only [clampedEnd, Option.getD_some]
    omega
  rw [hs, he] at hf
  have := mem_columnFrames (by omega) hf
  omega

/-- Witness for C1 at the concrete render `sampleCount = 11, windowSize = 2,
hopSize = 1` (10 frames), full range, canvas width 4, column 1, frame 3. -/
theorem c1_column_frames_in_range_witness :
    (0 : ℤ) ≤ 0 ∧ (0 : ℤ) < 10 ∧ (10 : ℤ) ≤ totalFrameCount 11 2 1 ∧
    ((3 : ℤ) ∈ columnFrames (clampedStart (some 0) (totalFrameCount 11 2 1))
      (clampedEnd (some 10) (totalFrameCount 11 2 1) -
        clampedStart (some 0) (totalFrameCount 11 2 1)) 4 1) ∧
    ((0 : ℤ) ≤ 3 ∧ (3 : ℤ) < 10) := by
  have hmem : (3 : ℤ) ∈ columnFrames (clampedStart (some 0) (totalFrameCount 11 2 1))
      (clampedEnd (some 10) (totalFrameCount 11 2 1) -
        clampedStart (some 0) (totalFrameCount 11 2 1)) 4 1 := by
    norm_num [columnFrames, columnFrameLo, columnFrameHi, clampedStart, clampedEnd,
      totalFrameCount]
    exact ⟨1, by norm_num, by norm_num⟩
  exact ⟨by norm_num, by norm_num, by norm_num [totalFrameCount], hmem,
    c1_column_frames_in_range 11 2 1 0 10 (by norm_num) (by norm_num)
      (by norm_num [totalFrameCount]) 4 1 3 hmem⟩

/-- C5: when the sample buffer holds at least `windowSize` samples, the slice
extracted for any frame index is exactly `windowSize` consecutive samples
lying entirely inside the buffer (the start is shifted, never zero-padded). -/
theorem c5_full_window_at_edges (audioData : List ℝ) (hopSize windowSize : ℕ) (frame : ℤ)
    (h : windowSize ≤ audioData.length) :
    0 ≤ (frameSampleRange frame hopSize windowSize audioData.length).1 ∧
    (frameSampleRange frame hopSize windowSize audioData.length).2 ≤ audioData.length ∧
    (frameSampleRange frame hopSize windowSize audioData.length).2 -
      (frameSampleRange frame hopSize windowSize audioData.length).1 = windowSize ∧
    ((audioData.take (frameSampleRange frame hopSize windowSize audioData.length).2.toNat).drop
      (frameSampleRange frame hopSize windowSize audioData.length).1.toNat).length
      = windowSize := by
  have hb : 0 ≤ (frameSampleRange frame hopSize windowSize audioData.length).1 ∧
      (frameSampleRange frame hopSize windowSize audioData.length).2 ≤ audioData.length ∧
      (frameSampleRange frame hopSize windowSize audioData.length).2 -
        (frameSampleRange frame hopSize windowSize audioData.length).1 = windowSize := by
    simp only [frameSampleRange]
    split_ifs <;> simp_all <;> omega
  refine ⟨hb.1, hb.2.1, hb.2.2, ?_⟩
  rw [List.length_drop, List.length_take]
  omega

/-- Witness for C5 with the low-precision profile at the last frame of a
one-second buffer: frame 54, hop 256, window 2048, 16000 samples. -/
theorem c5_full_window_at_edges_witness :
    2048 ≤ (List.replicate 16000 (0 : ℝ)).length ∧
    (0 ≤ (frameSampleRange 54 256 2048 (List.replicate 16000 (0 : ℝ)).length).1 ∧
     (frameSampleRange 54 256 2048 (List.replicate 16000 (0 : ℝ)).length).2 ≤
       (List.replicate 16000 (0 : ℝ)).length ∧
     (frameSampleRange 54 256 2048 (List.replicate 16000 (0 : ℝ)).length).2 -
       (frameSampleRange 54 256 2048 (List.replicate 16000 (0 : ℝ)).length).1 = 2048 ∧
     (((List.replicate 16000 (0 : ℝ)).take
         (frameSampleRange 54 256 2048 (List.replicate 16000 (0 : ℝ)).length).2.toNat).drop
       (frameSampleRange 54 256 2048 (List.replicate 16000 (0 : ℝ)).length).1.toNat).length
       = 2048) :=
  ⟨by rw [List.length_replicate]; norm_num,
    c5_full_window_at_edges (List.replicate 16000 0) 256 2048 54
      (by rw [List.length_replicate]; norm_num)⟩

/-- C8: converting a visible-seconds value to the pixels-per-frame zoom and
back returns the original value exactly (in the real-arithmetic model of the
JavaScript number algebra). -/
theorem c8_zoom_roundtrip (viewportWidth hopSize sampleRate seconds : ℚ)
    (hw : 0 < viewportWidth) (hh : 0 < hopSize) (hs : 0 < sampleRate) (hv : 0 < seconds) :
    zoomToSeconds viewportWidth hopSize sampleRate
      (secondsToZoom viewportWidth hopSize sampleRate seconds) = seconds := by
  unfold zoomToSeconds secondsToZoom
  field_simp
  ring

/-- Witness for C8 at `viewportWidth = 1920, hopSize = 256, sampleRate =
16000, seconds = 2`. -/
theorem c8_zoom_roundtrip_witness :
    (0 : ℚ) < 2 ∧
    zoomToSeconds 1920 256 16000 (secondsToZoom 1920 256 16000 2) = 2 :=
  ⟨by norm_num,
    c8_zoom_roundtrip 1920 256 16000 2 (by norm_num) (by norm_num) (by norm_num) (by norm_num)⟩

/-- C7: whenever the visible time window is at least the audio duration, the
frame range selected for rendering is the full `[0, totalFrameCount)`,
regardless of the pixel offset — both in `renderSpectrogram`'s selection (it
passes `undefined` bounds) and in `drawSpectrogram`'s defaulting clamp. -/
theorem c7_full_audio_window (zoomSeconds audioDuration offset zoom sampleRate hopSize : ℚ)
    (frameCount : ℤ) (h : zoomSeconds ≥ audioDuration) :
    selectFrameRange zoomSeconds audioDuration offset zoom sampleRate hopSize frameCount
      = (none, none) ∧
    renderedRange
      (selectFrameRange zoomSeconds audioDuration offset zoom sampleRate hopSize frameCount)
      frameCount = (0, frameCount) ∧
    clampedStart none frameCount = 0 ∧
    (0 ≤ frameCount → clampedEnd none frameCount = frameCount) := by
  have h1 : selectFrameRange zoomSeconds audioDuration offset zoom sampleRate hopSize frameCount
      = (none, none) := by
    simp only [selectFrameRange]
    rw [if_pos h]
  refine ⟨h1, by rw [h1]; rfl, ?_, ?_⟩
  · simp only [clampedStart, Option.getD_none]
    omega
  · intro hfc
    simp only [clampedEnd, Option.getD_none]
    omega

/-- Witness for C7: a 5-second window over 3 seconds of audio, nonzero offset. -/
theorem c7_full_audio_window_witness :
    (5 : ℚ) ≥ 3 ∧
    (selectFrameRange 5 3 700 2 16000 256 10 = (none, none) ∧
     renderedRange (selectFrameRange 5 3 700 2 16000 256 10) 10 = (0, 10) ∧
     clampedStart none 10 = 0 ∧
     ((0 : ℤ) ≤ 10 → clampedEnd none 10 = 10)) :=
  ⟨by norm_num, c7_full_audio_window 5 3 700 2 16000 256 10 (by norm_num)⟩

/-- Counterexample to C3 as stated: for the empty sample buffer with the
low-precision profile (`sampleCount = 0 < windowSize = 2048`) the derived
total frame count is `-7`, not zero, and `drawSpectrogram` throws the
invalid-frame-range error instead of producing a degenerate result. -/
theorem c3_counterexample :
    totalFrameCount 0 2048 256 = -7 ∧
    drawSpectrogram [] 2048 256 1024 none none 100 100 (fun _ => false) =
      .error "Invalid frame range: frameStart must be less than frameEnd" := by
  constructor
  · norm_num [totalFrameCount]
  · norm_num [drawSpectrogram, totalFrameCount, clampedStart, clampedEnd]

/-- C3 amended: for `sampleCount < windowSize` (with positive hop, an
in-range frequency cutoff and positive canvas dimensions) the derived total
frame count is `≤ 0` — it equals zero exactly when `windowSize - hopSize ≤
sampleCount` — the clamped frame range is empty, and `drawSpectrogram` throws
the invalid-frame-range error before writing any pixel, rather than
producing a degenerate-but-valid image. -/
theorem c3_amended (audioData : List ℝ) (windowSize hopSize maxFrequency : ℕ)
    (canvasWidth canvasHeight : ℕ) (aborted : ℕ → Bool)
    (hlen : audioData.length < windowSize) (hhop : 0 < hopSize)
    (hmf : ¬ ((maxFrequency : ℚ) > (windowSize : ℚ) / 2))
    (hW : 0 < canvasWidth) (hH : 0 < canvasHeight) :
    totalFrameCount audioData.length windowSize hopSize ≤ 0 ∧
    (totalFrameCount audioData.length windowSize hopSize = 0 ↔
      (windowSize : ℤ) - hopSize ≤ audioData.length) ∧
    drawSpectrogram audioData windowSize hopSize maxFrequency none none
      canvasWidth canvasHeight aborted =
      .error "Invalid frame range: frameStart must be less than frameEnd" := by
  have hq : ((audioData.length : ℚ) - windowSize) / hopSize < 0 := by
    apply div_neg_of_neg_of_pos
    · have : (audioData.length : ℚ) < windowSize := by exact_mod_cast hlen
      linarith
    · exact_mod_cast hhop
  have hfl : ⌊((audioData.length : ℚ) - windowSize) / hopSize⌋ < 0 :=
    Int.floor_lt.mpr (by exact_mod_cast hq)
  have hiff : ⌊((audioData.length : ℚ) - windowSize) / hopSize⌋ = -1 ↔
      (windowSize : ℤ) - hopSize ≤ audioData.length := by
    rw [Int.floor_eq_iff]
    constructor
    · rintro ⟨ha, -⟩
      rw [le_div_iff (by exact_mod_cast hhop)] at ha
      have ha' : (windowSize : ℚ) - hopSize ≤ audioData.length := by push_cast at ha ⊢; linarith
      exact_mod_cast ha'
    · intro ha
      refine ⟨?_, ?_⟩
      · rw [le_div_iff (by exact_mod_cast hhop)]
        have ha' : (windowSize : ℚ) - hopSize ≤ audioData.length := by exact_mod_cast ha
        push_cast
        linarith
      · push_cast
        linarith [hq]
  have hT : totalFrameCount audioData.length windowSize hopSize ≤ 0 := by
    simp only [totalFrameCount]
    omega
  refine ⟨hT, ?_, ?_⟩
  · simp only [totalFrameCount]
    constructor
    · intro h
      exact hiff.mp (by omega)
    · intro h
      have := hiff.mpr h
      omega
  · have hle : clampedEnd none (totalFrameCount audioData.length windowSize hopSize) -
        clampedStart none (totalFrameCount audioData.length windowSize hopSize) ≤ 0 := by
      simp only [clampedStart, clampedEnd, Option.getD_none]
      omega
    simp only [drawSpectrogram]
    rw [if_neg hmf, if_neg (by omega : ¬(canvasWidth ≤ 0 ∨ canvasHeight ≤ 0)), if_pos hle]

/-- Witness for the amended C3 at the empty buffer with the low-precision
profile parameters. -/
theorem c3_amended_witness :
    ([] : List ℝ).length < 2048 ∧
    (totalFrameCount ([] : List ℝ).length 2048 256 ≤ 0 ∧
     (totalFrameCount ([] : List ℝ).length 2048 256 = 0 ↔
       (2048 : ℤ) - 256 ≤ ([] : List ℝ).length) ∧
     drawSpectrogram [] 2048 256 1024 none none 100 100 (fun _ => false) =
       .error "Invalid frame range: frameStart must be less than frameEnd") :=
  ⟨by norm_num,
    c3_amended [] 2048 256 1024 100 100 (fun _ => false) (by norm_num) (by norm_num)
      (by norm_num) (by norm_num) (by norm_num)⟩

/-- Counterexample to C4 as stated: a call with `frameEnd = frameStart =
totalFrameCount` (10 frames here) does NOT fail — the clamping of lines
141-142 turns the empty requested range into the non-empty `[9, 10)` and the
render proceeds. -/
theorem c4_counterexample :
    totalFrameCount 11 2 1 = 10 ∧ (10 : ℤ) ≤ 10 ∧
    isError (drawSpectrogram (List.replicate 11 (0 : ℝ)) 2 1 1 (some 10) (some 10) 1 1
      (fun _ => false)) = false := by
  refine ⟨by norm_num [totalFrameCount], by norm_num, ?_⟩
  have hs : clampedStart (some 10) (totalFrameCount 11 2 1) = 9 := by
    norm_num [clampedStart, totalFrameCount]
  have he : clampedEnd (some 10) (totalFrameCount 11 2 1) = 10 := by
    norm_num [clampedEnd, totalFrameCount]
  simp only [drawSpectrogram, List.length_replicate, hs, he]
  norm_num [isError]

/-- C4 amended: with an in-range frequency cutoff, non-positive raster
dimensions always throw before any pixel is written; and `frameEnd ≤
frameStart` throws the invalid-range error provided `frameStart <
totalFrameCount` — but when both bounds are clamped down from
`totalFrameCount` or above, the clamped range becomes `[totalFrameCount - 1,
totalFrameCount)` and the render proceeds (see the counterexample). -/
theorem c4_amended (audioData : List ℝ) (windowSize hopSize maxFrequency : ℕ)
    (canvasWidth canvasHeight : ℕ) (fs fe : ℤ) (aborted : ℕ → Bool)
    (hmf : ¬ ((maxFrequency : ℚ) > (windowSize : ℚ) / 2)) :
    ((canvasWidth ≤ 0 ∨ canvasHeight ≤ 0) →
      drawSpectrogram audioData windowSize hopSize maxFrequency (some fs) (some fe)
        canvasWidth canvasHeight aborted =
        .error "Canvas width and height must be greater than 0") ∧
    (0 < canvasWidth → 0 < canvasHeight → fe ≤ fs →
      fs < totalFrameCount audioData.length windowSize hopSize →
      drawSpectrogram audioData windowSize hopSize maxFrequency (some fs) (some fe)
        canvasWidth canvasHeight aborted =
        .error "Invalid frame range: frameStart must be less than frameEnd") := by
  constructor
  · intro hwh
    simp only [drawSpectrogram]
    rw [if_neg hmf, if_pos hwh]
  · intro hW hH hfe hfs
    have hle : clampedEnd (some fe) (totalFrameCount audioData.length windowSize hopSize) -
        clampedStart (some fs) (totalFrameCount audioData.length windowSize hopSize) ≤ 0 := by
      simp only [clampedStart, clampedEnd, Option.getD_some]
      omega
    simp only [drawSpectrogram]
    rw [if_neg hmf, if_neg (by omega : ¬(canvasWidth ≤ 0 ∨ canvasHeight ≤ 0)), if_pos hle]

/-- Witness for the amended C4: the in-range empty request `frameStart =
frameEnd = 3` over 10 frames throws the invalid-range error. -/
theorem c4_amended_witness :
    (3 : ℤ) ≤ 3 ∧ (3 : ℤ) < totalFrameCount 11 2 1 ∧
    drawSpectrogram (List.replicate 11 (0 : ℝ)) 2 1 1 (some 3) (some 3) 1 1
      (fun _ => false) =
      .error "Invalid frame range: frameStart must be less than frameEnd" := by
  refine ⟨by norm_num, by norm_num [totalFrameCount], ?_⟩
  have h := (c4_amended (List.replicate 11 (0 : ℝ)) 2 1 1 1 1 3 3 (fun _ => false)
    (by norm_num)).2 (by norm_num) (by norm_num) (by norm_num)
    (by norm_num [totalFrameCount, List.length_replicate])
  exact h

/-- The raster update of one column iteration: column `x` is written, all
other columns keep their previous contents. -/
lemma processColumn_raster (audioData : List ℝ) (windowSize hopSize maxFrequency : ℕ)
    (startFrame frameCount : ℤ) (canvasWidth canvasHeight : ℕ) (x : ℕ) (st : DrawState)
    (c : ℕ) :
    (processColumn audioData windowSize hopSize maxFrequency startFrame frameCount
      canvasWidth canvasHeight x st).raster c =
      if c = x then
        some (columnData audioData windowSize hopSize maxFrequency startFrame frameCount
          canvasWidth canvasHeight x)
      else st.raster c := by
  simp only [processColumn]
  split <;> rfl

/-- After one column iteration `lastPercent` equals that column's percentage
(also in the no-emission branch, where they already agreed). -/
lemma processColumn_lastPercent (audioData : List ℝ) (windowSize hopSize maxFrequency : ℕ)
    (startFrame frameCount : ℤ) (canvasWidth canvasHeight : ℕ) (x : ℕ) (st : DrawState) :
    (processColumn audioData windowSize hopSize maxFrequency startFrame frameCount
      canvasWidth canvasHeight x st).lastPercent = percentAt canvasWidth x := by
  simp only [processColumn]
  split
  · rfl
  · exact (not_ne_iff.mp (by assumption)).symm

/-- The emission behaviour of one column iteration: the column's percentage
is appended exactly when it differs from `lastPercent`. -/
lemma processColumn_emissions (audioData : List ℝ) (windowSize hopSize maxFrequency : ℕ)
    (startFrame frameCount : ℤ) (canvasWidth canvasHeight : ℕ) (x : ℕ) (st : DrawState) :
    (processColumn audioData windowSize hopSize maxFrequency startFrame frameCount
      canvasWidth canvasHeight x st).emissions =
      if percentAt canvasWidth x ≠ st.lastPercent then
        st.emissions ++ [percentAt canvasWidth x]
      else st.emissions := by
  simp only [processColumn]
  split <;> simp [*]

section LoopLemmas

variable (audioData : List ℝ) (windowSize hopSize maxFrequency : ℕ)
variable (startFrame frameCount : ℤ) (canvasWidth canvasHeight : ℕ)

/-- Raster contents of the column loop under a cancellation signalled at the
column boundary `K` (the signal reads `true` exactly from column `K` on):
columns `[x, min (x+n) K)` hold their rendered data, every other column is
untouched. -/
lemma drawLoopAux_raster_abortAt (aborted : ℕ → Bool) (K : ℕ)
    (hab : ∀ i, aborted i = true ↔ K ≤ i) :
    ∀ (n x : ℕ) (st : DrawState) (c : ℕ),
      (drawLoopAux audioData windowSize hopSize maxFrequency startFrame frameCount
        canvasWidth canvasHeight aborted n x st).raster c =
      if x ≤ c ∧ c < min (x + n) K then
        some (columnData audioData windowSize hopSize maxFrequency startFrame frameCount
          canvasWidth canvasHeight c)
      else st.raster c := by
  intro n
  induction n with
  | zero =>
    intro x st c
    simp only [drawLoopAux]
    rw [if_neg (by omega)]
  | succ n ih =>
    intro x st c
    simp only [drawLoopAux]
    by_cases hx : aborted x
    · rw [if_pos hx]
      have hKx : K ≤ x := (hab x).mp hx
      rw [if_neg (by omega)]
    · rw [if_neg hx]
      have hxK : x < K := by
        by_contra hcon
        exact hx ((hab x).mpr (by omega))
      rw [ih (x + 1) _ c, processColumn_raster]
      by_cases hc : c = x
      · subst hc
        rw [if_neg (by omega), if_pos rfl, if_pos (by omega)]
      · rw [if_neg hc]
        by_cases hA : x + 1 ≤ c ∧ c < min (x + 1 + n) K
        · rw [if_pos hA, if_pos (by omega)]
        · rw [if_neg hA, if_neg (by omega)]

/-- Raster contents of the column loop when cancellation is never signalled:
columns `[x, x+n)` hold their rendered data. -/
lemma drawLoopAux_raster_noabort (aborted : ℕ → Bool)
    (hab : ∀ i, aborted i = false) :
    ∀ (n x : ℕ) (st : DrawState) (c : ℕ),
      (drawLoopAux audioData windowSize hopSize maxFrequency startFrame frameCount
        canvasWidth canvasHeight aborted n x st).raster c =
      if x ≤ c ∧ c < x + n then
        some (columnData audioData windowSize hopSize maxFrequency startFrame frameCount
          canvasWidth canvasHeight c)
      else st.raster c := by
  intro n
  induction n with
  | zero =>
    intro x st c
    simp only [drawLoopAux]
    rw [if_neg (by omega)]
  | succ n ih =>
    intro x st c
    simp only [drawLoopAux]
    rw [if_neg (by simp [hab x]), ih (x + 1) _ c, processColumn_raster]
    by_cases hc : c = x
    · subst hc
      rw [if_neg (by omega), if_pos rfl, if_pos (by omega)]
    · rw [if_neg hc]
      by_cases hA : x + 1 ≤ c ∧ c < x + 1 + n
      · rw [if_pos hA, if_pos (by omega)]
      · rw [if_neg hA, if_neg (by omega)]

/-- Every emission added by the column loop is the percentage of a processed
(uncancelled) column. -/
lemma drawLoopAux_emissions_mem (aborted : ℕ → Bool) :
    ∀ (n x : ℕ) (st : DrawState) (e : ℤ),
      e ∈ (drawLoopAux audioData windowSize hopSize maxFrequency startFrame frameCount
        canvasWidth canvasHeight aborted n x st).emissions →
      e ∈ st.emissions ∨
        ∃ c, x ≤ c ∧ c < x + n ∧ aborted c = false ∧ e = percentAt canvasWidth c := by
  intro n
  induction n with
  | zero =>
    intro x st e he
    exact Or.inl he
  | succ n ih =>
    intro x st e he
    simp only [drawLoopAux] at he
    by_cases hx : aborted x
    · rw [if_pos hx] at he
      exact Or.inl he
    · rw [if_neg hx] at he
      rcases ih (x + 1) _ e he with h | ⟨c, hc1, hc2, hc3, hc4⟩
      · rw [processColumn_emissions] at h
        by_cases hp : percentAt canvasWidth x ≠ st.lastPercent
        · rw [if_pos hp] at h
          rcases List.mem_append.mp h with h' | h'
          · exact Or.inl h'
          · refine Or.inr ⟨x, le_refl x, by omega, by simpa using hx, ?_⟩
            simpa using h'
        · rw [if_neg hp] at h
          exact Or.inl h
      · exact Or.inr ⟨c, by omega, by omega, hc3, hc4⟩

end LoopLemmas

/-- Progress percentages are nonnegative. -/
lemma percentAt_nonneg (canvasWidth x : ℕ) : 0 ≤ percentAt canvasWidth x := by
  unfold percentAt
  apply Int.floor_nonneg.mpr
  positivity

/-- Before the last column, the progress percentage is strictly below 100. -/
lemma percentAt_lt_100 {canvasWidth x : ℕ} (hx : x + 1 < canvasWidth) :
    percentAt canvasWidth x < 100 := by
  unfold percentAt
  have hWq : (0 : ℚ) < canvasWidth := by
    have : 0 < canvasWidth := by omega
    exact_mod_cast this
  have h1 : ((x : ℚ) + 1) / canvasWidth < 1 := by
    rw [div_lt_one hWq]
    have : ((x + 1 : ℕ) : ℚ) < canvasWidth := by exact_mod_cast hx
    push_cast at this
    linarith
  have h2 : (((x : ℚ) + 1) / canvasWidth) * 100 < 100 := by nlinarith
  have := Int.floor_lt.mpr (show (((x : ℚ) + 1) / canvasWidth) * 100 < ((100 : ℤ) : ℚ) by
    exact_mod_cast h2)
  exact this

/-- The last column's progress percentage is exactly 100. -/
lemma percentAt_last {canvasWidth : ℕ} (hW : 0 < canvasWidth) :
    percentAt canvasWidth (canvasWidth - 1) = 100 := by
  unfold percentAt
  have hWq : (canvasWidth : ℚ) ≠ 0 := by
    have : 0 < canvasWidth := hW
    exact_mod_cast this.ne'
  have hcast : ((canvasWidth - 1 : ℕ) : ℚ) = (canvasWidth : ℚ) - 1 := by
    have : 1 ≤ canvasWidth := hW
    push_cast [Nat.cast_sub this]
    ring
  rw [hcast, sub_add_cancel, div_self hWq, one_mul]
  norm_num

/-- The final redraw branch never changes the raster. -/
lemma drawRun_raster (audioData : List ℝ) (windowSize hopSize maxFrequency : ℕ)
    (startFrame frameCount : ℤ) (canvasWidth canvasHeight : ℕ) (aborted : ℕ → Bool) :
    (drawRun audioData windowSize hopSize maxFrequency startFrame frameCount
      canvasWidth canvasHeight aborted).raster =
    (drawLoopAux audioData windowSize hopSize maxFrequency startFrame frameCount
      canvasWidth canvasHeight aborted canvasWidth 0 ⟨fun _ => none, -1, []⟩).raster := by
  unfold drawRun
  split <;> rfl

/-- When the signal is aborted after the loop, the final `100%` emission is
skipped. -/
lemma drawRun_emissions_aborted (audioData : List ℝ) (windowSize hopSize maxFrequency : ℕ)
    (startFrame frameCount : ℤ) (canvasWidth canvasHeight : ℕ) (aborted : ℕ → Bool)
    (h : aborted canvasWidth = true) :
    (drawRun audioData windowSize hopSize maxFrequency startFrame frameCount
      canvasWidth canvasHeight aborted).emissions =
    (drawLoopAux audioData windowSize hopSize maxFrequency startFrame frameCount
      canvasWidth canvasHeight aborted canvasWidth 0 ⟨fun _ => none, -1, []⟩).emissions := by
  unfold drawRun
  rw [if_pos h]

/-- C2: if cancellation is signalled once `K` of the `canvasWidth` columns
have been completed (`K < canvasWidth`), `drawSpectrogram` returns normally
(an `.ok` result, no exception), the raster holds rendered data exactly for
columns `[0, K)`, every later column keeps its raster-default contents, and
the final `100%` progress notification is never emitted. -/
theorem c2_cancellation_stops_loop (audioData : List ℝ)
    (windowSize hopSize maxFrequency : ℕ) (frameStart frameEnd : Option ℤ)
    (canvasWidth canvasHeight : ℕ) (aborted : ℕ → Bool) (K : ℕ)
    (hmf : ¬ ((maxFrequency : ℚ) > (windowSize : ℚ) / 2))
    (hW : 0 < canvasWidth) (hH : 0 < canvasHeight)
    (hrange : 0 <
      clampedEnd frameEnd (totalFrameCount audioData.length windowSize hopSize) -
      clampedStart frameStart (totalFrameCount audioData.length windowSize hopSize))
    (hab : ∀ i, aborted i = true ↔ K ≤ i)
    (hK : K < canvasWidth) :
    drawSpectrogram audioData windowSize hopSize maxFrequency frameStart frameEnd
      canvasWidth canvasHeight aborted =
      .ok (drawRun audioData windowSize hopSize maxFrequency
        (clampedStart frameStart (totalFrameCount audioData.length windowSize hopSize))
        (clampedEnd frameEnd (totalFrameCount audioData.length windowSize hopSize) -
          clampedStart frameStart (totalFrameCount audioData.length windowSize hopSize))
        canvasWidth canvasHeight aborted) ∧
    (∀ c, c < K →
      (drawRun audioData windowSize hopSize maxFrequency
        (clampedStart frameStart (totalFrameCount audioData.length windowSize hopSize))
        (clampedEnd frameEnd (totalFrameCount audioData.length windowSize hopSize) -
          clampedStart frameStart (totalFrameCount audioData.length windowSize hopSize))
        canvasWidth canvasHeight aborted).raster c =
      some (columnData audioData windowSize hopSize maxFrequency
        (clampedStart frameStart (totalFrameCount audioData.length windowSize hopSize))
        (clampedEnd frameEnd (totalFrameCount audioData.length windowSize hopSize) -
          clampedStart frameStart (totalFrameCount audioData.length windowSize hopSize))
        canvasWidth canvasHeight c)) ∧
    (∀ c, K ≤ c →
      (drawRun audioData windowSize hopSize maxFrequency
        (clampedStart frameStart (totalFrameCount audioData.length windowSize hopSize))
        (clampedEnd frameEnd (totalFrameCount audioData.length windowSize hopSize) -
          clampedStart frameStart (totalFrameCount audioData.length windowSize hopSize))
        canvasWidth canvasHeight aborted).raster c = none) ∧
    100 ∉ (drawRun audioData windowSize hopSize maxFrequency
        (clampedStart frameStart (totalFrameCount audioData.length windowSize hopSize))
        (clampedEnd frameEnd (totalFrameCount audioData.length windowSize hopSize) -
          clampedStart frameStart (totalFrameCount audioData.length windowSize hopSize))
        canvasWidth canvasHeight aborted).emissions := by
  refine ⟨?_, ?_, ?_, ?_⟩
  · simp only [drawSpectrogram]
    rw [if_neg hmf, if_neg (by omega : ¬(canvasWidth ≤ 0 ∨ canvasHeight ≤ 0)),
      if_neg (by omega)]
  · intro c hc
    rw [drawRun_raster, drawLoopAux_raster_abortAt _ _ _ _ _ _ _ _ _ K hab]
    rw [if_pos (by omega)]
  · intro c hc
    rw [drawRun_raster, drawLoopAux_raster_abortAt _ _ _ _ _ _ _ _ _ K hab]
    rw [if_neg (by omega)]
  · intro hmem
    rw [drawRun_emissions_aborted _ _ _ _ _ _ _ _ _ ((hab canvasWidth).mpr (by omega))] at hmem
    rcases drawLoopAux_emissions_mem _ _ _ _ _ _ _ _ _ _ _ _ 100 hmem with h | ⟨c, _, hc2, hc3, hc4⟩
    · simp at h
    · have hcK : c < K := by
        by_contra hcon
        have := (hab c).mpr (by omega)
        rw [this] at hc3
        exact absurd hc3 (by simp)
      have : percentAt canvasWidth c < 100 := percentAt_lt_100 (by omega)
      omega

/-- Witness for C2: an 11-sample buffer, 10 frames, a 2-column canvas, and a
cancellation signalled after 1 column. -/
theorem c2_cancellation_stops_loop_witness :
    1 < 2 ∧
    (drawSpectrogram (List.replicate 11 (0 : ℝ)) 2 1 1 none none 2 1
        (fun i => decide (1 ≤ i)) =
      .ok (drawRun (List.replicate 11 (0 : ℝ)) 2 1 1
        (clampedStart none (totalFrameCount (List.replicate 11 (0 : ℝ)).length 2 1))
        (clampedEnd none (totalFrameCount (List.replicate 11 (0 : ℝ)).length 2 1) -
          clampedStart none (totalFrameCount (List.replicate 11 (0 : ℝ)).length 2 1))
        2 1 (fun i => decide (1 ≤ i))) ∧
    (∀ c, c < 1 →
      (drawRun (List.replicate 11 (0 : ℝ)) 2 1 1
        (clampedStart none (totalFrameCount (List.replicate 11 (0 : ℝ)).length 2 1))
        (clampedEnd none (totalFrameCount (List.replicate 11 (0 : ℝ)).length 2 1) -
          clampedStart none (totalFrameCount (List.replicate 11 (0 : ℝ)).length 2 1))
        2 1 (fun i => decide (1 ≤ i))).raster c =
      some (columnData (List.replicate 11 (0 : ℝ)) 2 1 1
        (clampedStart none (totalFrameCount (List.replicate 11 (0 : ℝ)).length 2 1))
        (clampedEnd none (totalFrameCount (List.replicate 11 (0 : ℝ)).length 2 1) -
          clampedStart none (totalFrameCount (List.replicate 11 (0 : ℝ)).length 2 1))
        2 1 c)) ∧
    (∀ c, 1 ≤ c →
      (drawRun (List.replicate 11 (0 : ℝ)) 2 1 1
        (clampedStart none (totalFrameCount (List.replicate 11 (0 : ℝ)).length 2 1))
        (clampedEnd none (totalFrameCount (List.replicate 11 (0 : ℝ)).length 2 1) -
          clampedStart none (totalFrameCount (List.replicate 11 (0 : ℝ)).length 2 1))
        2 1 (fun i => decide (1 ≤ i))).raster c = none) ∧
    100 ∉ (drawRun (List.replicate 11 (0 : ℝ)) 2 1 1
        (clampedStart none (totalFrameCount (List.replicate 11 (0 : ℝ)).length 2 1))
        (clampedEnd none (totalFrameCount (List.replicate 11 (0 : ℝ)).length 2 1) -
          clampedStart none (totalFrameCount (List.replicate 11 (0 : ℝ)).length 2 1))
        2 1 (fun i => decide (1 ≤ i))).emissions) :=
  ⟨by norm_num,
    c2_cancellation_stops_loop (List.replicate 11 0) 2 1 1 none none 2 1
      (fun i => decide (1 ≤ i)) 1 (by norm_num) (by norm_num) (by norm_num)
      (by norm_num [clampedStart, clampedEnd, totalFrameCount, List.length_replicate])
      (fun i => by simp) (by norm_num)⟩

/-- Progress percentages are monotone in the column index. -/
lemma percentAt_mono {canvasWidth : ℕ} (hW : 0 < canvasWidth) {x y : ℕ} (h : x ≤ y) :
    percentAt canvasWidth x ≤ percentAt canvasWidth y := by
  unfold percentAt
  apply Int.floor_le_floor
  have hxy : (x : ℚ) ≤ (y : ℚ) := by exact_mod_cast h
  gcongr

/-- On-canvas columns have progress percentages at most 100. -/
lemma percentAt_le_100 {canvasWidth x : ℕ} (hW : 0 < canvasWidth) (hx : x < canvasWidth) :
    percentAt canvasWidth x ≤ 100 := by
  unfold percentAt
  have hWq : (0 : ℚ) < canvasWidth := by exact_mod_cast hW
  have h1 : ((x : ℚ) + 1) / canvasWidth ≤ 1 := by
    rw [div_le_one hWq]
    have : ((x + 1 : ℕ) : ℚ) ≤ canvasWidth := by exact_mod_cast hx
    push_cast at this
    linarith
  have h2 : (((x : ℚ) + 1) / canvasWidth) * 100 ≤ ((100 : ℤ) : ℚ) := by
    push_cast
    nlinarith
  calc ⌊(((x : ℚ) + 1) / canvasWidth) * 100⌋ ≤ ⌊((100 : ℤ) : ℚ)⌋ := Int.floor_le_floor h2
    _ = 100 := Int.floor_intCast 100

/-- Invariant of the uncancelled column loop: it appends a strictly
increasing run of column percentages to the emissions, each strictly above
the incoming `lastPercent`, the final `lastPercent` is the last processed
column's percentage, and the last appended emission (if any) equals it. -/
lemma drawLoopAux_emissions_noabort (audioData : List ℝ)
    (windowSize hopSize maxFrequency : ℕ) (startFrame frameCount : ℤ)
    (canvasWidth canvasHeight : ℕ) (aborted : ℕ → Bool)
    (hW : 0 < canvasWidth) (hab : ∀ i, aborted i = false) :
    ∀ (n x : ℕ) (st : DrawState), st.lastPercent ≤ percentAt canvasWidth x →
    ∃ t : List ℤ,
      (drawLoopAux audioData windowSize hopSize maxFrequency startFrame frameCount
        canvasWidth canvasHeight aborted n x st).emissions = st.emissions ++ t ∧
      List.Chain' (· < ·) (st.lastPercent :: t) ∧
      (∀ e ∈ t, ∃ c, x ≤ c ∧ c < x + n ∧ e = percentAt canvasWidth c) ∧
      (drawLoopAux audioData windowSize hopSize maxFrequency startFrame frameCount
        canvasWidth canvasHeight aborted n x st).lastPercent =
        (if n = 0 then st.lastPercent else percentAt canvasWidth (x + n - 1)) ∧
      (t = [] →
        (drawLoopAux audioData windowSize hopSize maxFrequency startFrame frameCount
          canvasWidth canvasHeight aborted n x st).lastPercent = st.lastPercent) ∧
      (t ≠ [] → t.getLast? =
        some ((drawLoopAux audioData windowSize hopSize maxFrequency startFrame frameCount
          canvasWidth canvasHeight aborted n x st).lastPercent)) := by
  intro n
  induction n with
  | zero =>
    intro x st _
    exact ⟨[], by simp [drawLoopAux], by simp, by simp, by simp [drawLoopAux],
      fun _ => rfl, fun h => absurd rfl h⟩
  | succ n ih =>
    intro x st hle
    have hnotab : ¬ (aborted x = true) := by simp [hab x]
    have hlp' : (processColumn audioData windowSize hopSize maxFrequency startFrame frameCount
        canvasWidth canvasHeight x st).lastPercent = percentAt canvasWidth x :=
      processColumn_lastPercent _ _ _ _ _ _ _ _ _ _
    obtain ⟨t1, he1, hc1, hm1, hl1, hz1, hnz1⟩ :=
      ih (x + 1) (processColumn audioData windowSize hopSize maxFrequency startFrame frameCount
        canvasWidth canvasHeight x st)
        (by rw [hlp']; exact percentAt_mono hW (by omega))
    rw [hlp'] at hc1 hz1
    by_cases hp : percentAt canvasWidth x ≠ st.lastPercent
    · have he' : (processColumn audioData windowSize hopSize maxFrequency startFrame frameCount
          canvasWidth canvasHeight x st).emissions =
          st.emissions ++ [percentAt canvasWidth x] := by
        rw [processColumn_emissions, if_pos hp]
      refine ⟨percentAt canvasWidth x :: t1, ?_, ?_, ?_, ?_, ?_, ?_⟩
      · simp only [drawLoopAux]
        rw [if_neg hnotab, he1, he']
        simp
      · exact List.chain'_cons.mpr ⟨lt_of_le_of_ne hle (Ne.symm hp), hc1⟩
      · intro e he
        rcases List.mem_cons.mp he with h' | h'
        · exact ⟨x, le_refl x, by omega, h'⟩
        · obtain ⟨c, hc1', hc2', hc3'⟩ := hm1 e h'
          exact ⟨c, by omega, by omega, hc3'⟩
      · simp only [drawLoopAux]
        rw [if_neg hnotab, hl1]
        rcases Nat.eq_zero_or_pos n with hn | hn
        · subst hn
          simp [hlp']
        · rw [if_neg (by omega), if_neg (by omega)]
          congr 1
          omega
      · intro h
        exact absurd h (by simp)
      · intro _
        simp only [drawLoopAux]
        rw [if_neg hnotab]
        by_cases ht1 : t1 = []
        · subst ht1
          rw [hz1 rfl]
          simp
        · rw [show percentAt canvasWidth x :: t1 = [percentAt canvasWidth x] ++ t1 from rfl,
            List.getLast?_append_of_ne_nil _ ht1]
          exact hnz1 ht1
    · have hpe : percentAt canvasWidth x = st.lastPercent := not_ne_iff.mp hp
      have he' : (processColumn audioData windowSize hopSize maxFrequency startFrame frameCount
          canvasWidth canvasHeight x st).emissions = st.emissions := by
        rw [processColumn_emissions, if_neg hp]
      refine ⟨t1, ?_, ?_, ?_, ?_, ?_, ?_⟩
      · simp only [drawLoopAux]
        rw [if_neg hnotab, he1, he']
      · rw [← hpe]
        exact hc1
      · intro e he
        obtain ⟨c, hc1', hc2', hc3'⟩ := hm1 e he
        exact ⟨c, by omega, by omega, hc3'⟩
      · simp only [drawLoopAux]
        rw [if_neg hnotab, hl1]
        rcases Nat.eq_zero_or_pos n with hn | hn
        · subst hn
          simp [hlp', ← hpe]
        · rw [if_neg (by omega), if_neg (by omega)]
          congr 1
          omega
      · intro h
        rw [show (drawLoopAux audioData windowSize hopSize maxFrequency startFrame frameCount
          canvasWidth canvasHeight aborted (n + 1) x st) =
          (drawLoopAux audioData windowSize hopSize maxFrequency startFrame frameCount
            canvasWidth canvasHeight aborted n (x + 1)
            (processColumn audioData windowSize hopSize maxFrequency startFrame frameCount
              canvasWidth canvasHeight x st)) from by
            simp only [drawLoopAux]; rw [if_neg hnotab]]
        rw [hz1 h, ← hpe]
      · intro h
        rw [show (drawLoopAux audioData windowSize hopSize maxFrequency startFrame frameCount
          canvasWidth canvasHeight aborted (n + 1) x st) =
          (drawLoopAux audioData windowSize hopSize maxFrequency startFrame frameCount
            canvasWidth canvasHeight aborted n (x + 1)
            (processColumn audioData windowSize hopSize maxFrequency startFrame frameCount
              canvasWidth canvasHeight x st)) from by
            simp only [drawLoopAux]; rw [if_neg hnotab]]
        exact hnz1 h

/-- When the signal is never aborted, the final `100%` notification is
appended unconditionally after the loop. -/
lemma drawRun_emissions_noabort (audioData : List ℝ) (windowSize hopSize maxFrequency : ℕ)
    (startFrame frameCount : ℤ) (canvasWidth canvasHeight : ℕ) (aborted : ℕ → Bool)
    (h : aborted canvasWidth = false) :
    (drawRun audioData windowSize hopSize maxFrequency startFrame frameCount
      canvasWidth canvasHeight aborted).emissions =
    (drawLoopAux audioData windowSize hopSize maxFrequency startFrame frameCount
      canvasWidth canvasHeight aborted canvasWidth 0 ⟨fun _ => none, -1, []⟩).emissions
      ++ [100] := by
  unfold drawRun
  rw [if_neg (by simp [h])]

/-- Counterexample to C9 as stated: in an uncancelled 1-column render the
column loop emits `100` at its only column and line 357 then emits `100`
again, so the emitted sequence is `[100, 100]` — not strictly increasing, and
the second callback fires although the percentage did not change. -/
theorem c9_counterexample :
    emissionsOf (drawSpectrogram (List.replicate 3 (0 : ℝ)) 2 1 1 none none 1 1
      (fun _ => false)) = [100, 100] ∧
    ¬ List.Chain' (· < ·) [(100 : ℤ), 100] := by
  constructor
  · have hok : drawSpectrogram (List.replicate 3 (0 : ℝ)) 2 1 1 none none 1 1
        (fun _ => false) =
        .ok (drawRun (List.replicate 3 (0 : ℝ)) 2 1 1
          (clampedStart none (totalFrameCount (List.replicate 3 (0 : ℝ)).length 2 1))
          (clampedEnd none (totalFrameCount (List.replicate 3 (0 : ℝ)).length 2 1) -
            clampedStart none (totalFrameCount (List.replicate 3 (0 : ℝ)).length 2 1))
          1 1 (fun _ => false)) := by
      simp only [drawSpectrogram]
      rw [if_neg (by norm_num), if_neg (by norm_num),
        if_neg (by norm_num [clampedStart, clampedEnd, totalFrameCount])]
    rw [hok]
    show (drawRun (List.replicate 3 (0 : ℝ)) 2 1 1 _ _ 1 1 (fun _ => false)).emissions
      = [100, 100]
    rw [drawRun_emissions_noabort _ _ _ _ _ _ _ _ _ rfl]
    have haux : (drawLoopAux (List.replicate 3 (0 : ℝ)) 2 1 1
        (clampedStart none (totalFrameCount (List.replicate 3 (0 : ℝ)).length 2 1))
        (clampedEnd none (totalFrameCount (List.replicate 3 (0 : ℝ)).length 2 1) -
          clampedStart none (totalFrameCount (List.replicate 3 (0 : ℝ)).length 2 1))
        1 1 (fun _ => false) 1 0 ⟨fun _ => none, -1, []⟩).emissions = [100] := by
      simp only [drawLoopAux]
      rw [if_neg (by simp), processColumn_emissions]
      rw [if_pos (by norm_num [percentAt])]
      simp
      norm_num [percentAt]
    rw [haux]
    rfl
  · simp

/-- C9 amended: within one uncancelled render the in-loop emissions are the
changed column percentages — integers in `[0, 100]`, strictly increasing,
de-duplicated, ending at `100` at the last column — but `drawSpectrogram`
then unconditionally emits a final `100` (line 357), duplicating the last
in-loop emission, so the full emitted sequence is only non-decreasing, with
exactly one duplicate at its end. -/
theorem c9_progress_monotone_amended (audioData : List ℝ)
    (windowSize hopSize maxFrequency : ℕ) (frameStart frameEnd : Option ℤ)
    (canvasWidth canvasHeight : ℕ) (aborted : ℕ → Bool)
    (hmf : ¬ ((maxFrequency : ℚ) > (windowSize : ℚ) / 2))
    (hW : 0 < canvasWidth) (hH : 0 < canvasHeight)
    (hrange : 0 <
      clampedEnd frameEnd (totalFrameCount audioData.length windowSize hopSize) -
      clampedStart frameStart (totalFrameCount audioData.length windowSize hopSize))
    (hab : ∀ i, aborted i = false) :
    drawSpectrogram audioData windowSize hopSize maxFrequency frameStart frameEnd
      canvasWidth canvasHeight aborted =
      .ok (drawRun audioData windowSize hopSize maxFrequency
        (clampedStart frameStart (totalFrameCount audioData.length windowSize hopSize))
        (clampedEnd frameEnd (totalFrameCount audioData.length windowSize hopSize) -
          clampedStart frameStart (totalFrameCount audioData.length windowSize hopSize))
        canvasWidth canvasHeight aborted) ∧
    ∃ t : List ℤ,
      (drawRun audioData windowSize hopSize maxFrequency
        (clampedStart frameStart (totalFrameCount audioData.length windowSize hopSize))
        (clampedEnd frameEnd (totalFrameCount audioData.length windowSize hopSize) -
          clampedStart frameStart (totalFrameCount audioData.length windowSize hopSize))
        canvasWidth canvasHeight aborted).emissions = t ++ [100] ∧
      List.Chain' (· < ·) t ∧
      (∀ e ∈ t, 0 ≤ e ∧ e ≤ 100 ∧
        ∃ c, c < canvasWidth ∧ e = percentAt canvasWidth c) ∧
      t.getLast? = some 100 := by
  constructor
  · simp only [drawSpectrogram]
    rw [if_neg hmf, if_neg (by omega : ¬(canvasWidth ≤ 0 ∨ canvasHeight ≤ 0)),
      if_neg (by omega)]
  · obtain ⟨t, he, hchain, hmem, hlast, hz, hnz⟩ :=
      drawLoopAux_emissions_noabort audioData windowSize hopSize maxFrequency
        (clampedStart frameStart (totalFrameCount audioData.length windowSize hopSize))
        (clampedEnd frameEnd (totalFrameCount audioData.length windowSize hopSize) -
          clampedStart frameStart (totalFrameCount audioData.length windowSize hopSize))
        canvasWidth canvasHeight aborted hW hab canvasWidth 0 ⟨fun _ => none, -1, []⟩
        (by have := percentAt_nonneg canvasWidth 0; simp only []; omega)
    have hlast100 : (drawLoopAux audioData windowSize hopSize maxFrequency
        (clampedStart frameStart (totalFrameCount audioData.length windowSize hopSize))
        (clampedEnd frameEnd (totalFrameCount audioData.length windowSize hopSize) -
          clampedStart frameStart (totalFrameCount audioData.length windowSize hopSize))
        canvasWidth canvasHeight aborted canvasWidth 0
        ⟨fun _ => none, -1, []⟩).lastPercent = 100 := by
      rw [hlast, if_neg (by omega), show 0 + canvasWidth - 1 = canvasWidth - 1 from by omega]
      exact percentAt_last hW
    have ht_ne : t ≠ [] := by
      intro hteq
      have := hz hteq
      rw [hlast100] at this
      simp at this
    refine ⟨t, ?_, hchain.tail, ?_, ?_⟩
    · rw [drawRun_emissions_noabort _ _ _ _ _ _ _ _ _ (hab canvasWidth), he]
      simp
    · intro e hemem
      obtain ⟨c, hc0, hcW, rfl⟩ := hmem e hemem
      exact ⟨percentAt_nonneg _ _, percentAt_le_100 hW (by omega),
        c, by omega, rfl⟩
    · rw [hnz ht_ne, hlast100]

/-- Witness for the amended C9: the uncancelled 1-column render over a
3-sample buffer. -/
theorem c9_progress_monotone_amended_witness :
    0 < 1 ∧
    ((drawSpectrogram (List.replicate 3 (0 : ℝ)) 2 1 1 none none 1 1 (fun _ => false) =
      .ok (drawRun (List.replicate 3 (0 : ℝ)) 2 1 1
        (clampedStart none (totalFrameCount (List.replicate 3 (0 : ℝ)).length 2 1))
        (clampedEnd none (totalFrameCount (List.replicate 3 (0 : ℝ)).length 2 1) -
          clampedStart none (totalFrameCount (List.replicate 3 (0 : ℝ)).length 2 1))
        1 1 (fun _ => false))) ∧
    ∃ t : List ℤ,
      (drawRun (List.replicate 3 (0 : ℝ)) 2 1 1
        (clampedStart none (totalFrameCount (List.replicate 3 (0 : ℝ)).length 2 1))
        (clampedEnd none (totalFrameCount (List.replicate 3 (0 : ℝ)).length 2 1) -
          clampedStart none (totalFrameCount (List.replicate 3 (0 : ℝ)).length 2 1))
        1 1 (fun _ => false)).emissions = t ++ [100] ∧
      List.Chain' (· < ·) t ∧
      (∀ e ∈ t, 0 ≤ e ∧ e ≤ 100 ∧ ∃ c, c < 1 ∧ e = percentAt 1 c) ∧
      t.getLast? = some 100) :=
  ⟨by norm_num,
    c9_progress_monotone_amended (List.replicate 3 0) 2 1 1 none none 1 1 (fun _ => false)
      (by norm_num) (by norm_num) (by norm_num)
      (by norm_num [clampedStart, clampedEnd, totalFrameCount, List.length_replicate])
      (fun i => rfl)⟩

/-- Every element of a `zipWith` comes from applying the function to members
of the two lists. -/
lemma exists_of_mem_zipWith {α β γ : Type*} {f : α → β → γ} {l₁ : List α} {l₂ : List β}
    {x : γ} (h : x ∈ List.zipWith f l₁ l₂) :
    ∃ a b, a ∈ l₁ ∧ b ∈ l₂ ∧ x = f a b := by
  induction l₁ generalizing l₂ with
  | nil => simp at h
  | cons a l ih =>
    cases l₂ with
    | nil => simp at h
    | cons b l' =>
      rcases List.mem_cons.mp h with h' | h'
      · exact ⟨a, b, List.mem_cons_self _ _, List.mem_cons_self _ _, h'⟩
      · obtain ⟨a', b', ha, hb, hx⟩ := ih h'
        exact ⟨a', b', List.mem_cons_of_mem _ ha, List.mem_cons_of_mem _ hb, hx⟩

/-- `getD` over a constant list is that constant (also out of bounds, where
the default applies). -/
lemma getD_of_all_eq {α : Type*} {z : α} {l : List α} (h : ∀ v ∈ l, v = z) (n : ℕ) :
    l.getD n z = z := by
  rw [List.getD_eq_getElem?_getD]
  rcases hn : l[n]? with _ | v
  · rfl
  · exact h v (List.getElem?_mem hn)

/-- The DFT of the zero signal is zero in every bin. -/
lemma dft_zero {l : List ℂ} (h : ∀ z ∈ l, z = 0) : ∀ z ∈ dft l, z = 0 := by
  intro z hz
  unfold dft at hz
  obtain ⟨k, _, rfl⟩ := List.mem_map.mp hz
  apply List.sum_eq_zero
  intro w hw
  obtain ⟨n, _, rfl⟩ := List.mem_map.mp hw
  rw [getD_of_all_eq h n, zero_mul]

/-- A frame of the all-zero sample buffer has all-zero normalized log
magnitudes: windowing, FFT, magnitude and `log1p` all map zero to zero. -/
lemma frameLogMagnitudes_zero (n windowSize hopSize maxFrequency : ℕ) (frame : ℤ) :
    ∀ v ∈ frameLogMagnitudes (List.replicate n (0 : ℝ)) windowSize hopSize maxFrequency frame,
      v = 0 := by
  intro v hv
  unfold frameLogMagnitudes at hv
  obtain ⟨m, hm, rfl⟩ := List.mem_map.mp (List.mem_of_mem_take hv)
  obtain ⟨zc, hzc, rfl⟩ := List.mem_map.mp hm
  have hzc0 : zc = 0 := by
    refine dft_zero ?_ zc (List.mem_of_mem_take hzc)
    intro w hw
    obtain ⟨a, ha, rfl⟩ := List.mem_map.mp hw
    obtain ⟨u, b, hu, _, rfl⟩ := exists_of_mem_zipWith ha
    have hu0 : u = 0 :=
      List.eq_of_mem_replicate (List.mem_of_mem_take (List.mem_of_mem_drop hu))
    rw [hu0, zero_mul]
    exact Complex.ofReal_zero
  rw [hzc0]
  simp

/-- Elementwise max-pooling of all-zero magnitude vectors is all-zero. -/
lemma poolFrames_zero {vs : List (List ℝ)} (h : ∀ l ∈ vs, ∀ v ∈ l, v = 0) :
    ∀ v ∈ poolFrames vs, v = 0 := by
  cases vs with
  | nil => simp [poolFrames]
  | cons v0 vs' =>
    have H : ∀ (ws : List (List ℝ)) (acc : List ℝ), (∀ v ∈ acc, v = 0) →
        (∀ l ∈ ws, ∀ v ∈ l, v = 0) →
        ∀ v ∈ ws.foldl (List.zipWith max) acc, v = 0 := by
      intro ws
      induction ws with
      | nil => intro acc hacc _ v hv; exact hacc v hv
      | cons w ws' ih =>
        intro acc hacc hall v hv
        refine ih (List.zipWith max acc w) ?_
          (fun l hl => hall l (List.mem_cons_of_mem _ hl)) v hv
        intro u hu
        obtain ⟨a, b, ha, hb, rfl⟩ := exists_of_mem_zipWith hu
        rw [hacc a ha, hall w (List.mem_cons_self _ _) b hb]
        exact max_self 0
    exact H vs' v0 (h v0 (List.mem_cons_self _ _))
      (fun l hl => h l (List.mem_cons_of_mem _ hl))

/-- A pixel computed from an all-zero pooled magnitude vector is opaque
black: both vertical pooling (starting from 0) and `floor(0 * 255)` give 0. -/
lemma columnPixel_zero {maxValues : List ℝ} (h : ∀ v ∈ maxValues, v = 0)
    (maxFrequency canvasHeight y : ℕ) :
    columnPixel maxValues maxFrequency canvasHeight y = ⟨0, 0, 0, 255⟩ := by
  have hfold : ∀ bins : List ℤ, bins.foldl
      (fun (m : ℝ) (f : ℤ) => if m < 0 then 0 else m) 0 = 0 := by
    intro bins
    induction bins with
    | nil => rfl
    | cons b bs ih => simpa using ih
  simp only [columnPixel, getD_of_all_eq h]
  rw [hfold]
  norm_num

/-- Every rendered column of the all-zero sample buffer is opaque black,
through both the pooled path and the defensive empty-frame path. -/
lemma columnData_zero (n windowSize hopSize maxFrequency : ℕ) (startFrame frameCount : ℤ)
    (canvasWidth canvasHeight x : ℕ) :
    columnData (List.replicate n (0 : ℝ)) windowSize hopSize maxFrequency startFrame
      frameCount canvasWidth canvasHeight x =
      List.replicate canvasHeight ⟨0, 0, 0, 255⟩ := by
  simp only [columnData]
  split
  · rfl
  · have hmv : ∀ v ∈ poolFrames ((columnFrames startFrame frameCount canvasWidth x).map
        (frameLogMagnitudes (List.replicate n (0 : ℝ)) windowSize hopSize maxFrequency)),
        v = 0 := by
      apply poolFrames_zero
      intro l hl
      obtain ⟨fr, _, rfl⟩ := List.mem_map.mp hl
      exact frameLogMagnitudes_zero n windowSize hopSize maxFrequency fr
    apply List.eq_replicate.mpr
    refine ⟨by simp, ?_⟩
    intro b hb
    obtain ⟨y, _, rfl⟩ := List.mem_map.mp hb
    exact columnPixel_zero hmv maxFrequency canvasHeight y

/-- Loop invariant for C6: over the all-zero buffer, every column the loop
writes is all-black. -/
lemma drawLoopAux_raster_zero (n windowSize hopSize maxFrequency : ℕ)
    (startFrame frameCount : ℤ) (canvasWidth canvasHeight : ℕ) (aborted : ℕ → Bool) :
    ∀ (k x : ℕ) (st : DrawState),
      (∀ c px, st.raster c = some px → px = List.replicate canvasHeight ⟨0, 0, 0, 255⟩) →
      ∀ c px,
        (drawLoopAux (List.replicate n (0 : ℝ)) windowSize hopSize maxFrequency startFrame
          frameCount canvasWidth canvasHeight aborted k x st).raster c = some px →
        px = List.replicate canvasHeight ⟨0, 0, 0, 255⟩ := by
  intro k
  induction k with
  | zero =>
    intro x st hst c px hc
    exact hst c px hc
  | succ k ih =>
    intro x st hst c px hc
    simp only [drawLoopAux] at hc
    by_cases hx : aborted x
    · rw [if_pos hx] at hc
      exact hst c px hc
    · rw [if_neg hx] at hc
      refine ih (x + 1) _ ?_ c px hc
      intro c' px' hc'
      rw [processColumn_raster] at hc'
      by_cases hcx : c' = x
      · rw [if_pos hcx] at hc'
        have := (Option.some.injEq _ _).mp hc'
        rw [← this, columnData_zero]
      · rw [if_neg hcx] at hc'
        exact hst c' px' hc'

/-- C6: with the low-precision profile (`windowSize = 2048, hopSize = 256`)
over a one-second all-zero buffer at 16 kHz, the derived total frame count is
`floor((16000 - 2048) / 256) + 1 = 55`, and every pixel the renderer writes
is intensity 0 on all three color channels with full opacity, because each
frame's `log1p(0) / log1p(255)` magnitudes are 0 and both pooling maxima over
zeros are 0. -/
theorem c6_silence_renders_zero :
    totalFrameCount 16000 2048 256 = 55 ∧
    (∀ (maxFrequency : ℕ) (startFrame frameCount : ℤ) (canvasWidth canvasHeight x : ℕ),
      columnData (List.replicate 16000 (0 : ℝ)) 2048 256 maxFrequency startFrame frameCount
        canvasWidth canvasHeight x =
        List.replicate canvasHeight ⟨0, 0, 0, 255⟩) ∧
    (∀ (maxFrequency : ℕ) (frameStart frameEnd : Option ℤ)
       (canvasWidth canvasHeight : ℕ) (aborted : ℕ → Bool) (r : DrawState)
       (c : ℕ) (px : List RenderPixel),
      drawSpectrogram (List.replicate 16000 (0 : ℝ)) 2048 256 maxFrequency frameStart
        frameEnd canvasWidth canvasHeight aborted = .ok r →
      r.raster c = some px →
      px = List.replicate canvasHeight ⟨0, 0, 0, 255⟩) := by
  refine ⟨by norm_num [totalFrameCount], ?_, ?_⟩
  · intro maxFrequency startFrame frameCount canvasWidth canvasHeight x
    exact columnData_zero 16000 2048 256 maxFrequency startFrame frameCount
      canvasWidth canvasHeight x
  · intro maxFrequency frameStart frameEnd canvasWidth canvasHeight aborted r c px hok hc
    simp only [drawSpectrogram] at hok
    split_ifs at hok
    any_goals cases hok
    rw [drawRun_raster] at hc
    exact drawLoopAux_raster_zero 16000 2048 256 maxFrequency _ _ canvasWidth
      canvasHeight aborted canvasWidth 0 _ (fun _ _ h => Option.noConfusion h) c px hc

/-- Witness for C6: the first column of a 1x1 uncancelled render of the
silent buffer is actually written, and it is the all-black column. -/
theorem c6_silence_renders_zero_witness :
    columnData (List.replicate 16000 (0 : ℝ)) 2048 256 1
      (clampedStart none (totalFrameCount (List.replicate 16000 (0 : ℝ)).length 2048 256))
      (clampedEnd none (totalFrameCount (List.replicate 16000 (0 : ℝ)).length 2048 256) -
        clampedStart none (totalFrameCount (List.replicate 16000 (0 : ℝ)).length 2048 256))
      1 1 0 = List.replicate 1 ⟨0, 0, 0, 255⟩ := by
  have hok : drawSpectrogram (List.replicate 16000 (0 : ℝ)) 2048 256 1 none none 1 1
      (fun _ => false) =
      .ok (drawRun (List.replicate 16000 (0 : ℝ)) 2048 256 1
        (clampedStart none (totalFrameCount (List.replicate 16000 (0 : ℝ)).length 2048 256))
        (clampedEnd none (totalFrameCount (List.replicate 16000 (0 : ℝ)).length 2048 256) -
          clampedStart none (totalFrameCount (List.replicate 16000 (0 : ℝ)).length 2048 256))
        1 1 (fun _ => false)) := by
    simp only [drawSpectrogram]
    rw [if_neg (by norm_num), if_neg (by norm_num),
      if_neg (by norm_num [clampedStart, clampedEnd, totalFrameCount, List.length_replicate])]
  have hraster : (drawRun (List.replicate 16000 (0 : ℝ)) 2048 256 1
      (clampedStart none (totalFrameCount (List.replicate 16000 (0 : ℝ)).length 2048 256))
      (clampedEnd none (totalFrameCount (List.replicate 16000 (0 : ℝ)).length 2048 256) -
        clampedStart none (totalFrameCount (List.replicate 16000 (0 : ℝ)).length 2048 256))
      1 1 (fun _ => false)).raster 0 =
      some (columnData (List.replicate 16000 (0 : ℝ)) 2048 256 1
        (clampedStart none (totalFrameCount (List.replicate 16000 (0 : ℝ)).length 2048 256))
        (clampedEnd none (totalFrameCount (List.replicate 16000 (0 : ℝ)).length 2048 256) -
          clampedStart none (totalFrameCount (List.replicate 16000 (0 : ℝ)).length 2048 256))
        1 1 0) := by
    rw [drawRun_raster, drawLoopAux_raster_noabort _ _ _ _ _ _ _ _ _ (fun i => rfl)]
    rw [if_pos (by omega)]
  exact c6_silence_renders_zero.2.2 1 none none 1 1 (fun _ => false) _ 0 _ hok hraster

/-- The running-minimum fold of `calculateWaveformData`: the result is one of
the scanned values and bounds every scanned value from below. -/
lemma foldl_min_spec (l : List ℝ) (a : ℝ) :
    l.foldl (fun m v => if v < m then v else m) a ∈ a :: l ∧
    l.foldl (fun m v => if v < m then v else m) a ≤ a ∧
    ∀ v ∈ l, l.foldl (fun m v => if v < m then v else m) a ≤ v := by
  induction l generalizing a with
  | nil => simp
  | cons b bs ih =>
    rw [List.foldl_cons]
    by_cases hba : b < a
    · rw [if_pos hba]
      obtain ⟨hmem, hle, hall⟩ := ih b
      refine ⟨?_, by linarith, ?_⟩
      · rcases List.mem_cons.mp hmem with h | h
        · rw [h]
          exact List.mem_cons_of_mem _ (List.mem_cons_self _ _)
        · exact List.mem_cons_of_mem _ (List.mem_cons_of_mem _ h)
      · intro v hv
        rcases List.mem_cons.mp hv with h | h
        · rw [h]
          exact hle
        · exact hall v h
    · rw [if_neg hba]
      obtain ⟨hmem, hle, hall⟩ := ih a
      push_neg at hba
      refine ⟨?_, hle, ?_⟩
      · rcases List.mem_cons.mp hmem with h | h
        · rw [h]
          exact List.mem_cons_self _ _
        · exact List.mem_cons_of_mem _ (List.mem_cons_of_mem _ h)
      · intro v hv
        rcases List.mem_cons.mp hv with h | h
        · rw [h]
          linarith
        · exact hall v h

/-- The running-maximum fold of `calculateWaveformData`: the result is one of
the scanned values and bounds every scanned value from above. -/
lemma foldl_max_spec (l : List ℝ) (a : ℝ) :
    l.foldl (fun m v => if m < v then v else m) a ∈ a :: l ∧
    a ≤ l.foldl (fun m v => if m < v then v else m) a ∧
    ∀ v ∈ l, v ≤ l.foldl (fun m v => if m < v then v else m) a := by
  induction l generalizing a with
  | nil => simp
  | cons b bs ih =>
    rw [List.foldl_cons]
    by_cases hba : a < b
    · rw [if_pos hba]
      obtain ⟨hmem, hle, hall⟩ := ih b
      refine ⟨?_, by linarith, ?_⟩
      · rcases List.mem_cons.mp hmem with h | h
        · rw [h]
          exact List.mem_cons_of_mem _ (List.mem_cons_self _ _)
        · exact List.mem_cons_of_mem _ (List.mem_cons_of_mem _ h)
      · intro v hv
        rcases List.mem_cons.mp hv with h | h
        · rw [h]
          exact hle
        · exact hall v h
    · rw [if_neg hba]
      obtain ⟨hmem, hle, hall⟩ := ih a
      push_neg at hba
      refine ⟨?_, hle, ?_⟩
      · rcases List.mem_cons.mp hmem with h | h
        · rw [h]
          exact List.mem_cons_self _ _
        · exact List.mem_cons_of_mem _ (List.mem_cons_of_mem _ h)
      · intro v hv
        rcases List.mem_cons.mp hv with h | h
        · rw [h]
          linarith
        · exact hall v h

/-- The running sum-of-squares fold equals the sum of the squared samples. -/
lemma foldl_add_sq (l : List ℝ) :
    ∀ s : ℝ, l.foldl (fun s v => s + v * v) s = s + (l.map fun v => v * v).sum := by
  induction l with
  | nil => simp
  | cons b bs ih =>
    intro s
    rw [List.foldl_cons, ih]
    simp
    ring

/-- C10: `calculateWaveformData` returns exactly `canvasWidth` entries; an
entry whose bucket starts at or past the end of the audio is `{0, 0, 0}`;
every other entry's `min`/`max` are the true minimum/maximum of its bucket
(members of the bucket bounding it below/above) and its `rms` is the root
mean square of the bucket. -/
theorem c10_waveform_min_max_rms (audioData : List ℝ) (canvasWidth : ℕ)
    (hW : 0 < canvasWidth) :
    (calculateWaveformData audioData canvasWidth).length = canvasWidth ∧
    ∀ x, x < canvasWidth →
      (audioData.length ≤ x * samplesPerPixel audioData.length canvasWidth →
        (calculateWaveformData audioData canvasWidth).getD x ⟨0, 0, 0⟩ = ⟨0, 0, 0⟩) ∧
      (x * samplesPerPixel audioData.length canvasWidth < audioData.length →
        ((calculateWaveformData audioData canvasWidth).getD x ⟨0, 0, 0⟩).min ∈
          waveformBucket audioData canvasWidth x ∧
        (∀ v ∈ waveformBucket audioData canvasWidth x,
          ((calculateWaveformData audioData canvasWidth).getD x ⟨0, 0, 0⟩).min ≤ v) ∧
        ((calculateWaveformData audioData canvasWidth).getD x ⟨0, 0, 0⟩).max ∈
          waveformBucket audioData canvasWidth x ∧
        (∀ v ∈ waveformBucket audioData canvasWidth x,
          v ≤ ((calculateWaveformData audioData canvasWidth).getD x ⟨0, 0, 0⟩).max) ∧
        ((calculateWaveformData audioData canvasWidth).getD x ⟨0, 0, 0⟩).rms =
          Real.sqrt (((waveformBucket audioData canvasWidth x).map fun v => v * v).sum /
            (waveformBucket audioData canvasWidth x).length)) := by
  have hlen : (calculateWaveformData audioData canvasWidth).length = canvasWidth := by
    simp [calculateWaveformData]
  refine ⟨hlen, ?_⟩
  intro x hx
  have hget : (calculateWaveformData audioData canvasWidth).getD x ⟨0, 0, 0⟩ =
      waveformEntry audioData canvasWidth x := by
    rw [List.getD_eq_getElem?_getD]
    simp only [calculateWaveformData]
    rw [List.getElem?_map, List.getElem?_range hx]
    rfl
  rw [hget]
  constructor
  · intro hdeg
    simp only [waveformEntry]
    rw [if_pos hdeg]
  · intro hlt
    have hspp : 1 ≤ samplesPerPixel audioData.length canvasWidth := le_max_left _ _
    have hfirst : audioData.getD (x * samplesPerPixel audioData.length canvasWidth) 0 ∈
        waveformBucket audioData canvasWidth x := by
      have hlt2 : x * samplesPerPixel audioData.length canvasWidth <
          min (x * samplesPerPixel audioData.length canvasWidth +
            samplesPerPixel audioData.length canvasWidth) audioData.length := by omega
      have h0 : (waveformBucket audioData canvasWidth x)[0]? =
          some (audioData.getD (x * samplesPerPixel audioData.length canvasWidth) 0) := by
        simp only [waveformBucket]
        rw [List.getElem?_drop, Nat.add_zero, List.getElem?_take_of_lt hlt2,
          List.getElem?_eq_getElem hlt, List.getD_eq_getElem?_getD,
          List.getElem?_eq_getElem hlt]
        rfl
      exact List.getElem?_mem h0
    obtain ⟨hn1, _, hn3⟩ := foldl_min_spec (waveformBucket audioData canvasWidth x)
      (audioData.getD (x * samplesPerPixel audioData.length canvasWidth) 0)
    obtain ⟨hx1, _, hx3⟩ := foldl_max_spec (waveformBucket audioData canvasWidth x)
      (audioData.getD (x * samplesPerPixel audioData.length canvasWidth) 0)
    have hminmem : (waveformBucket audioData canvasWidth x).foldl
        (fun m v => if v < m then v else m)
        (audioData.getD (x * samplesPerPixel audioData.length canvasWidth) 0) ∈
        waveformBucket audioData canvasWidth x := by
      rcases List.mem_cons.mp hn1 with h | h
      · rw [h]
        exact hfirst
      · exact h
    have hmaxmem : (waveformBucket audioData canvasWidth x).foldl
        (fun m v => if m < v then v else m)
        (audioData.getD (x * samplesPerPixel audioData.length canvasWidth) 0) ∈
        waveformBucket audioData canvasWidth x := by
      rcases List.mem_cons.mp hx1 with h | h
      · rw [h]
        exact hfirst
      · exact h
    have hrms : Real.sqrt ((waveformBucket audioData canvasWidth x).foldl
        (fun s v => s + v * v) 0 / (waveformBucket audioData canvasWidth x).length) =
        Real.sqrt (((waveformBucket audioData canvasWidth x).map fun v => v * v).sum /
          (waveformBucket audioData canvasWidth x).length) := by
      rw [foldl_add_sq, zero_add]
    simp only [waveformEntry]
    rw [if_neg (by omega)]
    exact ⟨hminmem, hn3, hmaxmem, hx3, hrms⟩

/-- Witness for C10 over the buffer `[1, -2, 3]` with a 2-pixel canvas. -/
theorem c10_waveform_min_max_rms_witness :
    0 < 2 ∧
    ((calculateWaveformData [(1 : ℝ), -2, 3] 2).length = 2 ∧
    ∀ x, x < 2 →
      (([(1 : ℝ), -2, 3] : List ℝ).length ≤
          x * samplesPerPixel ([(1 : ℝ), -2, 3] : List ℝ).length 2 →
        (calculateWaveformData [(1 : ℝ), -2, 3] 2).getD x ⟨0, 0, 0⟩ = ⟨0, 0, 0⟩) ∧
      (x * samplesPerPixel ([(1 : ℝ), -2, 3] : List ℝ).length 2 <
          ([(1 : ℝ), -2, 3] : List ℝ).length →
        ((calculateWaveformData [(1 : ℝ), -2, 3] 2).getD x ⟨0, 0, 0⟩).min ∈
          waveformBucket [(1 : ℝ), -2, 3] 2 x ∧
        (∀ v ∈ waveformBucket [(1 : ℝ), -2, 3] 2 x,
          ((calculateWaveformData [(1 : ℝ), -2, 3] 2).getD x ⟨0, 0, 0⟩).min ≤ v) ∧
        ((calculateWaveformData [(1 : ℝ), -2, 3] 2).getD x ⟨0, 0, 0⟩).max ∈
          waveformBucket [(1 : ℝ), -2, 3] 2 x ∧
        (∀ v ∈ waveformBucket [(1 : ℝ), -2, 3] 2 x,
          v ≤ ((calculateWaveformData [(1 : ℝ), -2, 3] 2).getD x ⟨0, 0, 0⟩).max) ∧
        ((calculateWaveformData [(1 : ℝ), -2, 3] 2).getD x ⟨0, 0, 0⟩).rms =
          Real.sqrt (((waveformBucket [(1 : ℝ), -2, 3] 2 x).map fun v => v * v).sum /
            (waveformBucket [(1 : ℝ), -2, 3] 2 x).length))) :=
  ⟨by norm_num, c10_waveform_min_max_rms [(1 : ℝ), -2, 3] 2 (by norm_num)⟩
